import Mathlib

/-!
Shallow embedding of the move-planning and execution engine of
`archivist.py` (organize-media).  Paths are lists of components; the
filesystem seen by the planner is a finite association list from paths to
nodes; the metadata providers (ExifTool, ffmpeg) are modelled as data
supplied in the `World`.  Every definition mirrors the corresponding
Python function; theorems at the end settle the frozen claims.
-/

set_option autoImplicit false

/-- A filesystem path, as its list of components (Python `pathlib.Path`). -/
abbrev MPath := List String

/-- Final component of a path (Python `Path.name`). -/
def pathName (p : MPath) : String := (p.getLast?).getD ""

/-- Parent path (Python `Path.parent`). -/
def parentOf (p : MPath) : MPath := p.dropLast

/-- Index of the last occurrence of a character in a list, if any
(Python `str.rfind`). -/
def lastIdxOf (c : Char) (cs : List Char) : Option Nat :=
  (List.range cs.length).foldl
    (fun acc i => if cs.getD i ' ' = c then some i else acc) none

/-- Python `PurePath.suffix`: the final component's extension with its dot;
empty when there is no dot strictly inside the name. -/
def suffixOf (name : String) : String :=
  let cs := name.toList
  match lastIdxOf '.' cs with
  | some i => if 0 < i ∧ i < cs.length - 1 then String.mk (cs.drop i) else ""
  | none => ""

/-- ASCII lowercasing (Python `str.lower` on extension strings). -/
def strLower (s : String) : String := String.mk (s.toList.map Char.toLower)

/-- Photo extension allow-list from `archivist.py`. -/
def PHOTO_EXTENSIONS : List String := [".jpg", ".jpeg", ".arw", ".sr2", ".raf"]

/-- Video extension allow-list from `archivist.py`. -/
def VIDEO_EXTENSIONS : List String := [".mp4", ".mov"]

/-- Kind of a directory entry as the OS reports it.  `symlinkToRegular`
resolves to a regular file, `symlinkToDir` to a directory, `brokenSymlink`
to nothing. -/
inductive FileKind where
  | regular
  | directory
  | symlinkToRegular
  | symlinkToDir
  | brokenSymlink
  | other
deriving DecidableEq

/-- One entry yielded by `source_dir.rglob("*")`. -/
structure DirEntry where
  path : MPath
  kind : FileKind
deriving DecidableEq

/-- Python `Path.is_file()`: true for a regular file or a symlink that
resolves to a regular file. -/
def pyIsFile (k : FileKind) : Bool :=
  match k with
  | FileKind.regular => true
  | FileKind.symlinkToRegular => true
  | _ => false

/-- Classification step of `discover_files`: `some true` means photo,
`some false` means video, `none` means skipped. -/
def discoverClass (e : DirEntry) : Option Bool :=
  if pyIsFile e.kind = false then none
  else
    let ext := strLower (suffixOf (pathName e.path))
    if PHOTO_EXTENSIONS.contains ext then some true
    else if VIDEO_EXTENSIONS.contains ext then some false
    else none

/-- `discover_files` from `archivist.py`: split the rglob listing into
photo paths and video paths, in listing order. -/
def discover_files (entries : List DirEntry) : List MPath × List MPath :=
  (entries.filterMap (fun e => if discoverClass e = some true then some e.path else none),
   entries.filterMap (fun e => if discoverClass e = some false then some e.path else none))

/-- Naive local timestamp (Python `datetime`). -/
structure PyDateTime where
  year : Nat
  month : Nat
  day : Nat
  hour : Nat
  minute : Nat
  second : Nat
deriving DecidableEq

/-- Zero-padded decimal rendering of width `w`. -/
def padNum (w n : Nat) : String :=
  let s := toString n
  String.mk (List.replicate (w - s.length) '0') ++ s

/-- Python `date.strftime("%Y")` for the years that occur here. -/
def fmtYear (d : PyDateTime) : String := padNum 4 d.year

/-- Python `date.strftime("%Y-%m-%d")`. -/
def fmtDay (d : PyDateTime) : String :=
  padNum 4 d.year ++ "-" ++ padNum 2 d.month ++ "-" ++ padNum 2 d.day

/-- `calculate_target_path` from `archivist.py`:
`TARGET/YYYY/YYYY-MM-DD/[ext/]filename`, where `ext` is
`file_path.suffix[1:]` (no case change). -/
def calculate_target_path (file_path : MPath) (date : PyDateTime)
    (target_dir : MPath) (group_by_extension : Bool) : MPath :=
  let year := fmtYear date
  let day := fmtDay date
  let target := target_dir ++ [year, day]
  let target :=
    if group_by_extension then target ++ [(suffixOf (pathName file_path)).drop 1]
    else target
  target ++ [pathName file_path]

/-- A node of the target-side filesystem: a regular file with its bytes,
or a directory. -/
inductive FSNode where
  | file (content : List Nat)
  | dir
deriving DecidableEq

/-- Target-side filesystem state: finite map from paths to nodes. -/
abbrev FS := List (MPath × FSNode)

/-- Lookup of a path in the filesystem. -/
def fsLookup (fs : FS) (p : MPath) : Option FSNode :=
  (fs.find? (fun e => decide (e.1 = p))).map Prod.snd

/-- Python `Path.exists()`. -/
def fsExists (fs : FS) (p : MPath) : Bool := (fsLookup fs p).isSome

/-- Python `Path.is_file()` against the modelled filesystem. -/
def fsIsFile (fs : FS) (p : MPath) : Bool :=
  match fsLookup fs p with
  | some (FSNode.file _) => true
  | _ => false

/-- Python `filecmp.cmp(source, target, shallow=False)`: false unless both
paths are regular files, otherwise byte-for-byte content equality. -/
def filecmp_cmp (fs : FS) (a b : MPath) : Bool :=
  match fsLookup fs a, fsLookup fs b with
  | some (FSNode.file c1), some (FSNode.file c2) => decide (c1 = c2)
  | _, _ => false

/-- `check_file_conflict` from `archivist.py`. -/
def check_file_conflict (fs : FS) (source target : MPath)
    (check_duplicates : Bool) : Option String :=
  if fsIsFile fs (parentOf target) then
    some ("Target directory is a file")
  else if fsExists fs target then
    if check_duplicates && filecmp_cmp fs source target then none
    else some ("Target already exists")
  else none

/-- Classification outcome of the planner for one resolved file. -/
inductive MClass where
  | mv
  | dup
  | err
deriving DecidableEq

/-- The classification the planning loop of `organize_media` performs for
one resolved file (lines 300-315 of `archivist.py`, overwrite off):
the result of `check_file_conflict` followed by the `target_path.exists()`
re-check. -/
def codeClassify (fs : FS) (src tgt : MPath) (check_duplicates : Bool) : MClass :=
  match check_file_conflict fs src tgt check_duplicates with
  | some _ => MClass.err
  | none => if fsExists fs tgt then MClass.dup else MClass.mv

/-- Accumulated plan of a run: moves, duplicates and planning errors. -/
structure PlanResult where
  moves : List (MPath × MPath)
  duplicates : List (MPath × MPath)
  errors : List (MPath × String)
deriving DecidableEq

/-- One iteration of the planning loop of `organize_media`. -/
def planStep (fs : FS) (target_dir : MPath) (grp cd ow : Bool)
    (acc : PlanResult) (fd : MPath × PyDateTime) : PlanResult :=
  let tgt := calculate_target_path fd.1 fd.2 target_dir grp
  if ow then
    PlanResult.mk (acc.moves ++ [(fd.1, tgt)]) acc.duplicates acc.errors
  else
    match check_file_conflict fs fd.1 tgt cd with
    | some msg => PlanResult.mk acc.moves acc.duplicates (acc.errors ++ [(fd.1, msg)])
    | none =>
      if fsExists fs tgt then
        PlanResult.mk acc.moves (acc.duplicates ++ [(fd.1, tgt)]) acc.errors
      else
        PlanResult.mk (acc.moves ++ [(fd.1, tgt)]) acc.duplicates acc.errors

/-- The planning loop of `organize_media` (lines 293-315): fold over the
resolved-date mapping in insertion order. -/
def planFiles (fs : FS) (file_dates : List (MPath × PyDateTime))
    (target_dir : MPath) (grp cd ow : Bool) : PlanResult :=
  file_dates.foldl (planStep fs target_dir grp cd ow) (PlanResult.mk [] [] [])

/-- Python `re.match(r"\d{4}:\d{2}:\d{2} \d{2}:\d{2}:\d{2}", s)`: an
anchored prefix match of the fixed timestamp pattern. -/
def matchesDatePattern (s : String) : Bool :=
  let cs := s.toList
  decide (19 ≤ cs.length) &&
  (cs.take 4).all Char.isDigit &&
  (cs.getD 4 ' ' == ':') &&
  ((cs.drop 5).take 2).all Char.isDigit &&
  (cs.getD 7 ' ' == ':') &&
  ((cs.drop 8).take 2).all Char.isDigit &&
  (cs.getD 10 ':' == ' ') &&
  ((cs.drop 11).take 2).all Char.isDigit &&
  (cs.getD 13 ' ' == ':') &&
  ((cs.drop 14).take 2).all Char.isDigit &&
  (cs.getD 16 ' ' == ':') &&
  ((cs.drop 17).take 2).all Char.isDigit

/-- Decimal value of a digit list. -/
def digitsToNat (cs : List Char) : Nat :=
  cs.foldl (fun a c => a * 10 + (c.toNat - 48)) 0

/-- Gregorian leap-year rule, as Python's `calendar`/`datetime` use. -/
def isLeapYear (y : Nat) : Bool :=
  y % 4 == 0 && (y % 100 != 0 || y % 400 == 0)

/-- Length of a month. -/
def daysInMonth (y m : Nat) : Nat :=
  if m == 2 then (if isLeapYear y then 29 else 28)
  else if m == 4 || m == 6 || m == 9 || m == 11 then 30
  else 31

/-- Python `datetime.strptime(s, "%Y:%m:%d %H:%M:%S")`: succeeds exactly
when the whole string has the fixed 19-character shape and the fields form
a valid naive datetime; otherwise it raises `ValueError`, modelled as
`none`. -/
def pyStrptime (s : String) : Option PyDateTime :=
  let cs := s.toList
  if cs.length = 19 ∧ matchesDatePattern s = true then
    let y := digitsToNat (cs.take 4)
    let mo := digitsToNat ((cs.drop 5).take 2)
    let d := digitsToNat ((cs.drop 8).take 2)
    let h := digitsToNat ((cs.drop 11).take 2)
    let mi := digitsToNat ((cs.drop 14).take 2)
    let se := digitsToNat ((cs.drop 17).take 2)
    if 1 ≤ y ∧ 1 ≤ mo ∧ mo ≤ 12 ∧ 1 ≤ d ∧ d ≤ daysInMonth y mo ∧
        h ≤ 23 ∧ mi ≤ 59 ∧ se ≤ 59 then
      some (PyDateTime.mk y mo d h mi se)
    else none
  else none

/-- `extract_photo_dates` from `archivist.py`, with the ExifTool answer for
each file supplied as data (`none` models a missing
`EXIF:DateTimeOriginal`, Python's `KeyError`, which is caught per file).
A present tag value that fails the regex check raises `ValueError`
(line 114); a value that passes the regex but is rejected by `strptime`
also raises `ValueError`.  Neither is caught by the per-file
`except KeyError`, so either aborts the whole extraction with the
phase-level `RuntimeError` of line 125, modelled as `Except.error`.
Batching only drives the progress bar and does not affect the result. -/
def extract_photo_dates :
    List (MPath × Option String) → Except String (List (MPath × PyDateTime))
  | [] => Except.ok []
  | (_, none) :: rest => extract_photo_dates rest
  | (p, some s) :: rest =>
    if matchesDatePattern s then
      match pyStrptime s with
      | some d => (extract_photo_dates rest).map (fun r => (p, d) :: r)
      | none => Except.error ("Failed to extract EXIF data: ValueError")
    else
      Except.error ("Failed to extract EXIF data: Unexpected date format: " ++ s)

/-- Boolean success test for the extraction phase. -/
def exceptIsOk (e : Except String (List (MPath × PyDateTime))) : Bool :=
  match e with
  | Except.ok _ => true
  | Except.error _ => false

/-- Lookup in a string-valued association list. -/
def lookupStr (m : List (MPath × String)) (p : MPath) : Option String :=
  (m.find? (fun e => decide (e.1 = p))).map Prod.snd

/-- Lookup in a datetime-valued association list. -/
def lookupDate (m : List (MPath × PyDateTime)) (p : MPath) : Option PyDateTime :=
  (m.find? (fun e => decide (e.1 = p))).map Prod.snd

/-- Boolean membership of a path in a list of paths (Python `in` on the
keys of the `photo_dates` dict). -/
def pathMem (p : MPath) (ps : List MPath) : Bool :=
  ps.any (fun q => decide (q = p))

/-- The environment one run of `organize_media` observes: directory
validity, the rglob listing of the source, the ExifTool and ffmpeg
answers, the target-side filesystem, the immutable-flag probe, the
operator's answer at the prompt, and which moves would fail. -/
structure World where
  sourceIsDir : Bool
  targetIsDir : Bool
  targetRoot : MPath
  entries : List DirEntry
  metadata : List (MPath × String)
  videoDates : List (MPath × PyDateTime)
  fs : FS
  hasImmutableFlags : Bool
  userContinues : Bool
  moveFailures : List (MPath × String)

/-- The flag set of one invocation. -/
structure Config where
  group_by_extension : Bool
  dry_run : Bool
  skip_flag_check : Bool
  check_duplicates : Bool
  overwrite : Bool

/-- Everything one run produces: the exit status, whether the photo phase
aborted, the error lists by category, the plan, the moves actually
attempted, and the resulting filesystem. -/
structure RunOutcome where
  exit : Nat
  phaseFailed : Bool
  resolutionErrors : List (MPath × String)
  planningErrors : List (MPath × String)
  moveErrors : List (MPath × String)
  moves : List (MPath × MPath)
  duplicates : List (MPath × MPath)
  performed : List (MPath × MPath)
  fsAfter : FS

/-- True when the run stops at the immutable-flag prompt: the check is not
skipped, flags were found, and the operator declines. -/
def runDeclined (w : World) (cfg : Config) : Bool :=
  !cfg.skip_flag_check && w.hasImmutableFlags && !w.userContinues

/-- The per-photo ExifTool input of the run: each discovered photo paired
with its `EXIF:DateTimeOriginal` value, when present. -/
def photoInputs (w : World) : List (MPath × Option String) :=
  ((discover_files w.entries).1).map (fun p => (p, lookupStr w.metadata p))

/-- Photos that resolved to no date, with the message of line 279. -/
def photoErrsOf (w : World) (pd : List (MPath × PyDateTime)) :
    List (MPath × String) :=
  (((discover_files w.entries).1).filter
      (fun p => !(pathMem p (pd.map Prod.fst)))).map
    (fun p => (p, "No EXIF:DateTimeOriginal found"))

/-- Videos paired with their extracted creation time, in discovery order. -/
def videoPairsOf (w : World) : List (MPath × PyDateTime) :=
  ((discover_files w.entries).2).filterMap
    (fun p => (lookupDate w.videoDates p).map (fun d => (p, d)))

/-- Videos with no discoverable creation time, with the message of
line 291. -/
def videoErrsOf (w : World) : List (MPath × String) :=
  (((discover_files w.entries).2).filter
      (fun p => (lookupDate w.videoDates p).isNone)).map
    (fun p => (p, "No creation_time found"))

/-- `perform_move` with its failure determined by the world: returns
`(source, target, error?)` as the Python function does. -/
def performMoveModel (w : World) (src tgt : MPath) :
    MPath × MPath × Option String :=
  (src, tgt, lookupStr w.moveFailures src)

/-- Directory creation for every proper ancestor of a path
(`target.parent.mkdir(parents=True, exist_ok=True)`). -/
def mkdirParents (fs : FS) (p : MPath) : FS :=
  ((List.range p.length).map (fun k => p.take k)).foldl
    (fun acc a => if (fsLookup acc a).isSome then acc else (a, FSNode.dir) :: acc)
    fs

/-- Remove a path from the filesystem map. -/
def fsRemove (fs : FS) (p : MPath) : FS :=
  fs.filter (fun e => decide (e.1 ≠ p))

/-- Effect of the executed moves on the filesystem: a failed move changes
nothing; a successful one creates the target's ancestors, removes the
source and installs its node at the target. -/
def applyResults (fs : FS) (results : List (MPath × MPath × Option String)) : FS :=
  results.foldl
    (fun acc r =>
      match r.2.2 with
      | some _ => acc
      | none =>
        match fsLookup acc r.1 with
        | some n => (r.2.1, n) :: fsRemove (mkdirParents acc (parentOf r.2.1)) r.1
        | none => acc)
    fs

/-- Exit status from the final `if errors:` check of `organize_media`. -/
def exitOf (errs moveErrs : List (MPath × String)) : Nat :=
  if errs ++ moveErrs = [] then 0 else 1

/-- `organize_media` from `archivist.py`, end to end: directory checks,
discovery, the immutable-flag gate, date resolution, planning, and either
the dry-run report or the execution of the moves. -/
def organize_media (w : World) (cfg : Config) : RunOutcome :=
  if w.sourceIsDir = false then
    RunOutcome.mk 1 false [] [] [] [] [] [] w.fs
  else if w.targetIsDir = false then
    RunOutcome.mk 1 false [] [] [] [] [] [] w.fs
  else if runDeclined w cfg then
    RunOutcome.mk 0 false [] [] [] [] [] [] w.fs
  else
    match extract_photo_dates (photoInputs w) with
    | Except.error _ => RunOutcome.mk 1 true [] [] [] [] [] [] w.fs
    | Except.ok pd =>
      let resErrs := photoErrsOf w pd ++ videoErrsOf w
      let fds := pd ++ videoPairsOf w
      let plan := planFiles w.fs fds w.targetRoot cfg.group_by_extension
        cfg.check_duplicates cfg.overwrite
      if cfg.dry_run then
        RunOutcome.mk (exitOf (resErrs ++ plan.errors) []) false resErrs
          plan.errors [] plan.moves plan.duplicates [] w.fs
      else
        let results := plan.moves.map (fun m => performMoveModel w m.1 m.2)
        let moveErrs := results.filterMap
          (fun r => (r.2.2).map (fun e => (r.1, e)))
        RunOutcome.mk (exitOf (resErrs ++ plan.errors) moveErrs) false resErrs
          plan.errors moveErrs plan.moves plan.duplicates plan.moves
          (applyResults w.fs results)

/-- Modelled from the claim wording of C1 (for comparison): the
classification rules exactly as the claim states them, with both
existing-target tests reading "already exists as a file". -/
def specClassifyClaim (fs : FS) (src tgt : MPath) (cd : Bool) : MClass :=
  if fsIsFile fs (parentOf tgt) then MClass.err
  else if fsIsFile fs tgt && cd && filecmp_cmp fs src tgt then MClass.dup
  else if fsIsFile fs tgt then MClass.err
  else MClass.mv

/-- The amended classification rules: the existing-target tests fire when
the target path exists at all (file or directory); the Duplicate rule in
addition requires the byte-for-byte comparison to confirm identity, which
reports non-identical whenever the target is not a regular file. -/
def specClassifyAmended (fs : FS) (src tgt : MPath) (cd : Bool) : MClass :=
  if fsIsFile fs (parentOf tgt) then MClass.err
  else if fsExists fs tgt && cd && filecmp_cmp fs src tgt then MClass.dup
  else if fsExists fs tgt then MClass.err
  else MClass.mv

theorem codeClassify_eq_amended (fs : FS) (src tgt : MPath) (cd : Bool) :
    codeClassify fs src tgt cd = specClassifyAmended fs src tgt cd := by
  unfold codeClassify specClassifyAmended check_file_conflict
  by_cases h1 : fsIsFile fs (parentOf tgt) = true
  · simp [h1]
  · simp only [Bool.not_eq_true] at h1
    by_cases h2 : fsExists fs tgt = true
    · by_cases h3 : (cd && filecmp_cmp fs src tgt) = true
      · simp [h1, h2, h3]
      · simp only [Bool.not_eq_true] at h3
        simp [h1, h2, h3]
    · simp only [Bool.not_eq_true] at h2
      simp [h1, h2]

theorem conflict_isSome_eq_classify (fs : FS) (s t : MPath) (cd : Bool) :
    (check_file_conflict fs s t cd).isSome
      = decide (codeClassify fs s t cd = MClass.err) := by
  unfold codeClassify
  cases h : check_file_conflict fs s t cd with
  | some m => simp
  | none =>
    by_cases he : fsExists fs t = true <;> simp [he]

theorem planFoldl_false (fs : FS) (root : MPath) (grp cd : Bool) :
    ∀ (fds : List (MPath × PyDateTime)) (acc : PlanResult),
      fds.foldl (planStep fs root grp cd false) acc =
        PlanResult.mk
          (acc.moves ++ fds.filterMap (fun fd =>
            if codeClassify fs fd.1 (calculate_target_path fd.1 fd.2 root grp) cd = MClass.mv
            then some (fd.1, calculate_target_path fd.1 fd.2 root grp) else none))
          (acc.duplicates ++ fds.filterMap (fun fd =>
            if codeClassify fs fd.1 (calculate_target_path fd.1 fd.2 root grp) cd = MClass.dup
            then some (fd.1, calculate_target_path fd.1 fd.2 root grp) else none))
          (acc.errors ++ fds.filterMap (fun fd =>
            (check_file_conflict fs fd.1 (calculate_target_path fd.1 fd.2 root grp) cd).map
              (fun m => (fd.1, m))))
  | [], acc => by simp
  | fd :: rest, acc => by
    rw [List.foldl_cons, planFoldl_false fs root grp cd rest]
    unfold planStep codeClassify
    cases h : check_file_conflict fs fd.1 (calculate_target_path fd.1 fd.2 root grp) cd with
    | some m => simp [h, List.filterMap_cons]
    | none =>
      by_cases he : fsExists fs (calculate_target_path fd.1 fd.2 root grp) = true
      · simp [h, he, List.filterMap_cons]
      · simp only [Bool.not_eq_true] at he
        simp [h, he, List.filterMap_cons]

theorem planFoldl_true (fs : FS) (root : MPath) (grp cd : Bool) :
    ∀ (fds : List (MPath × PyDateTime)) (acc : PlanResult),
      fds.foldl (planStep fs root grp cd true) acc =
        PlanResult.mk
          (acc.moves ++ fds.map (fun fd => (fd.1, calculate_target_path fd.1 fd.2 root grp)))
          acc.duplicates acc.errors
  | [], acc => by simp
  | fd :: rest, acc => by
    rw [List.foldl_cons, planFoldl_true fs root grp cd rest]
    simp [planStep]

theorem map_fst_filterMap_conflict (fds : List (MPath × PyDateTime))
    (g : MPath × PyDateTime → Option String) :
    (fds.filterMap (fun fd => (g fd).map (fun m => (fd.1, m)))).map Prod.fst
      = (fds.filter (fun fd => (g fd).isSome)).map Prod.fst := by
  induction fds with
  | nil => rfl
  | cons fd rest ih =>
    cases h : g fd <;> simp [List.filterMap_cons, h, ih]

/-- C1. For every resolved file, with overwrite off, the planner
classifies by the amended rules: Error when the target's parent is a
regular file; else Duplicate when the target path already exists (file or
directory), duplicate-check mode is on, and the byte-for-byte comparison
confirms an identical regular file; else Error when the target path
already exists at all; else Move. -/
theorem claim_C1_planner_classification (fs : FS)
    (fds : List (MPath × PyDateTime)) (root : MPath) (grp cd : Bool) :
    (planFiles fs fds root grp cd false).moves
        = fds.filterMap (fun fd =>
            if specClassifyAmended fs fd.1 (calculate_target_path fd.1 fd.2 root grp) cd = MClass.mv
            then some (fd.1, calculate_target_path fd.1 fd.2 root grp) else none)
    ∧ (planFiles fs fds root grp cd false).duplicates
        = fds.filterMap (fun fd =>
            if specClassifyAmended fs fd.1 (calculate_target_path fd.1 fd.2 root grp) cd = MClass.dup
            then some (fd.1, calculate_target_path fd.1 fd.2 root grp) else none)
    ∧ (planFiles fs fds root grp cd false).errors.map Prod.fst
        = (fds.filter (fun fd =>
            decide (specClassifyAmended fs fd.1 (calculate_target_path fd.1 fd.2 root grp) cd = MClass.err))).map Prod.fst := by
  unfold planFiles
  rw [planFoldl_false]
  refine ⟨?_, ?_, ?_⟩
  · simp only [List.nil_append]
    apply List.filterMap_congr
    intro fd _
    rw [codeClassify_eq_amended]
  · simp only [List.nil_append]
    apply List.filterMap_congr
    intro fd _
    rw [codeClassify_eq_amended]
  · simp only [List.nil_append]
    rw [map_fst_filterMap_conflict]
    congr 1
    apply List.filter_congr
    intro fd _
    rw [conflict_isSome_eq_classify, codeClassify_eq_amended]

/-- Concrete date used by the counterexamples. -/
def dEx : PyDateTime := PyDateTime.mk 2024 3 15 10 30 0

/-- C1, counterexample to the claim as stated: when the computed target
path exists as a directory (not a file), the claim's rules fall through to
Move, but the code's `target.exists()` test fires and the planner records
an Error. -/
theorem claim_C1_counterexample :
    codeClassify [(["T", "2024", "2024-03-15", "a.jpg"], FSNode.dir)]
        ["S", "a.jpg"] ["T", "2024", "2024-03-15", "a.jpg"] false = MClass.err
    ∧ specClassifyClaim [(["T", "2024", "2024-03-15", "a.jpg"], FSNode.dir)]
        ["S", "a.jpg"] ["T", "2024", "2024-03-15", "a.jpg"] false = MClass.mv
    ∧ (planFiles [(["T", "2024", "2024-03-15", "a.jpg"], FSNode.dir)]
        [(["S", "a.jpg"], dEx)] ["T"] false false false).errors.map Prod.fst
      = [["S", "a.jpg"]] := by
  refine ⟨by decide, by decide, by decide⟩

/-- C8. With overwrite on, the planner bypasses every conflict check and
emits exactly one Move per resolved file: no Duplicate and no planning
Error is ever produced. -/
theorem claim_C8_overwrite_all_moves (fs : FS)
    (fds : List (MPath × PyDateTime)) (root : MPath) (grp cd : Bool) :
    planFiles fs fds root grp cd true =
      PlanResult.mk
        (fds.map (fun fd => (fd.1, calculate_target_path fd.1 fd.2 root grp)))
        [] [] := by
  unfold planFiles
  rw [planFoldl_true]
  simp

/-- C3, failing input: two distinct sources with the same filename and the
same resolved date, against an empty target tree, are both planned as
Move to the same destination path; the moves list does not have pairwise
distinct destinations. -/
theorem claim_C3_shared_destination :
    (planFiles [] [(["A", "IMG.jpg"], dEx), (["B", "IMG.jpg"], dEx)]
        ["T"] false false false).moves
      = [(["A", "IMG.jpg"], ["T", "2024", "2024-03-15", "IMG.jpg"]),
         (["B", "IMG.jpg"], ["T", "2024", "2024-03-15", "IMG.jpg"])]
    ∧ ¬ ((planFiles [] [(["A", "IMG.jpg"], dEx), (["B", "IMG.jpg"], dEx)]
        ["T"] false false false).moves.map Prod.snd).Nodup := by
  refine ⟨by decide, by decide⟩

/-- Modelled from the claim wording of C4 (for comparison): the target
path with EXT the lowercase extension without its leading separator. -/
def specTargetClaim (f : MPath) (d : PyDateTime) (root : MPath) (grp : Bool) : MPath :=
  root ++ [fmtYear d, fmtDay d]
    ++ (if grp then [(strLower (suffixOf (pathName f))).drop 1] else [])
    ++ [pathName f]

/-- The amended target-path format: EXT is the extension exactly as it
appears in the filename, without its leading separator, case preserved. -/
def specTargetAmended (f : MPath) (d : PyDateTime) (root : MPath) (grp : Bool) : MPath :=
  root ++ [fmtYear d, fmtDay d]
    ++ (if grp then [(suffixOf (pathName f)).drop 1] else [])
    ++ [pathName f]

/-- C4, amended: the computed target path is exactly
`TARGET_ROOT/YYYY/YYYY-MM-DD/[EXT/]ORIGINAL_FILENAME`, with `YYYY` and
`YYYY-MM-DD` rendered from the resolved naive timestamp, and `EXT` (when
grouping is enabled) the extension without its leading separator in its
original case, not lowercased. -/
theorem claim_C4_target_path_format (f : MPath) (d : PyDateTime)
    (root : MPath) (grp : Bool) :
    calculate_target_path f d root grp = specTargetAmended f d root grp := by
  unfold calculate_target_path specTargetAmended
  by_cases h : grp = true <;> simp [h, List.append_assoc]

/-- C4, counterexample to the claim as stated: for a file with an
uppercase extension the code keeps the extension's case in the grouping
segment, while the claim requires the lowercase extension. -/
theorem claim_C4_counterexample :
    calculate_target_path ["S", "IMG.JPG"] dEx ["T"] true
      = ["T", "2024", "2024-03-15", "JPG", "IMG.JPG"]
    ∧ specTargetClaim ["S", "IMG.JPG"] dEx ["T"] true
      = ["T", "2024", "2024-03-15", "jpg", "IMG.JPG"]
    ∧ calculate_target_path ["S", "IMG.JPG"] dEx ["T"] true
      ≠ specTargetClaim ["S", "IMG.JPG"] dEx ["T"] true := by
  refine ⟨by decide, by decide, by decide⟩

/-- C10. Planning is deterministic: two invocations of the planner on
equal resolved-date mappings, equal target roots, equal flags and equal
target-side filesystem states produce the same plan. -/
theorem claim_C10_plan_deterministic (fs1 fs2 : FS)
    (fds1 fds2 : List (MPath × PyDateTime)) (r1 r2 : MPath)
    (g1 g2 c1 c2 o1 o2 : Bool)
    (hfs : fs1 = fs2) (hfd : fds1 = fds2) (hr : r1 = r2)
    (hg : g1 = g2) (hc : c1 = c2) (ho : o1 = o2) :
    planFiles fs1 fds1 r1 g1 c1 o1 = planFiles fs2 fds2 r2 g2 c2 o2 := by
  subst hfs hfd hr hg hc ho
  rfl

/-- C10, witness: the determinism theorem applied at a concrete input. -/
theorem claim_C10_witness :
    ([] : FS) = ([] : FS)
    ∧ planFiles [] [(["A", "a.jpg"], dEx)] ["T"] false false false
      = planFiles [] [(["A", "a.jpg"], dEx)] ["T"] false false false :=
  ⟨rfl, claim_C10_plan_deterministic [] [] [(["A", "a.jpg"], dEx)]
    [(["A", "a.jpg"], dEx)] ["T"] ["T"] false false false false false false
    rfl rfl rfl rfl rfl rfl⟩

theorem pyIsFile_iff (k : FileKind) :
    pyIsFile k = true ↔ (k = FileKind.regular ∨ k = FileKind.symlinkToRegular) := by
  cases k <;> simp [pyIsFile]

theorem discoverClass_photo (e : DirEntry) :
    discoverClass e = some true ↔
      (pyIsFile e.kind = true
        ∧ PHOTO_EXTENSIONS.contains (strLower (suffixOf (pathName e.path))) = true) := by
  unfold discoverClass
  by_cases h1 : pyIsFile e.kind = false
  · simp [h1]
  · rw [Bool.not_eq_false] at h1
    by_cases h2 : PHOTO_EXTENSIONS.contains (strLower (suffixOf (pathName e.path))) = true
    · simp [h1, h2]
    · rw [Bool.not_eq_true] at h2
      by_cases h3 : VIDEO_EXTENSIONS.contains (strLower (suffixOf (pathName e.path))) = true
      · simp [h1, h2, h3]
      · rw [Bool.not_eq_true] at h3
        simp [h1, h2, h3]

theorem discoverClass_video (e : DirEntry) :
    discoverClass e = some false ↔
      (pyIsFile e.kind = true
        ∧ PHOTO_EXTENSIONS.contains (strLower (suffixOf (pathName e.path))) = false
        ∧ VIDEO_EXTENSIONS.contains (strLower (suffixOf (pathName e.path))) = true) := by
  unfold discoverClass
  by_cases h1 : pyIsFile e.kind = false
  · simp [h1]
  · rw [Bool.not_eq_false] at h1
    by_cases h2 : strLower (suffixOf (pathName e.path)) ∈ PHOTO_EXTENSIONS
    · simp [h1, h2]
    · by_cases h3 : strLower (suffixOf (pathName e.path)) ∈ VIDEO_EXTENSIONS
      · simp [h1, h2, h3]
      · simp [h1, h2, h3]

/-- C9, amended: discovery includes a path among the photos exactly when
some listed entry carries it, Python's `is_file()` holds for the entry —
that is, it is a regular file or a symlink resolving to a regular file —
and its lowercased extension is in the photo allow-list; and among the
videos exactly when `is_file()` holds, the extension misses the photo list
and is in the video allow-list.  Directories, broken symlinks and other
non-regular entries are skipped silently, but symlinks to regular files
are included. -/
theorem claim_C9_discovery (es : List DirEntry) (p : MPath) :
    (p ∈ (discover_files es).1 ↔
      ∃ e, e ∈ es ∧ e.path = p
        ∧ (e.kind = FileKind.regular ∨ e.kind = FileKind.symlinkToRegular)
        ∧ PHOTO_EXTENSIONS.contains (strLower (suffixOf (pathName p))) = true)
    ∧ (p ∈ (discover_files es).2 ↔
      ∃ e, e ∈ es ∧ e.path = p
        ∧ (e.kind = FileKind.regular ∨ e.kind = FileKind.symlinkToRegular)
        ∧ PHOTO_EXTENSIONS.contains (strLower (suffixOf (pathName p))) = false
        ∧ VIDEO_EXTENSIONS.contains (strLower (suffixOf (pathName p))) = true) := by
  constructor
  · simp only [discover_files, List.mem_filterMap]
    constructor
    · rintro ⟨e, he, hsome⟩
      by_cases hd : discoverClass e = some true
      · rw [if_pos hd] at hsome
        have hp : e.path = p := Option.some.inj hsome
        obtain ⟨hk, hext⟩ := (discoverClass_photo e).mp hd
        exact ⟨e, he, hp, (pyIsFile_iff e.kind).mp hk, by rw [← hp]; exact hext⟩
      · rw [if_neg hd] at hsome
        cases hsome
    · rintro ⟨e, he, hp, hk, hext⟩
      refine ⟨e, he, ?_⟩
      have hd : discoverClass e = some true :=
        (discoverClass_photo e).mpr
          ⟨(pyIsFile_iff e.kind).mpr hk, by rw [hp]; exact hext⟩
      rw [if_pos hd, hp]
  · simp only [discover_files, List.mem_filterMap]
    constructor
    · rintro ⟨e, he, hsome⟩
      by_cases hd : discoverClass e = some false
      · rw [if_pos hd] at hsome
        have hp : e.path = p := Option.some.inj hsome
        obtain ⟨hk, hext1, hext2⟩ := (discoverClass_video e).mp hd
        exact ⟨e, he, hp, (pyIsFile_iff e.kind).mp hk,
          by rw [← hp]; exact hext1, by rw [← hp]; exact hext2⟩
      · rw [if_neg hd] at hsome
        cases hsome
    · rintro ⟨e, he, hp, hk, hext1, hext2⟩
      refine ⟨e, he, ?_⟩
      have hd : discoverClass e = some false :=
        (discoverClass_video e).mpr
          ⟨(pyIsFile_iff e.kind).mpr hk, by rw [hp]; exact hext1,
            by rw [hp]; exact hext2⟩
      rw [if_pos hd, hp]

/-- Modelled from the claim wording of C9 (for comparison): discovery that
includes only regular files, never symlinks. -/
def specDiscoverClaim (entries : List DirEntry) : List MPath × List MPath :=
  (entries.filterMap (fun e =>
    if e.kind = FileKind.regular
        ∧ PHOTO_EXTENSIONS.contains (strLower (suffixOf (pathName e.path))) = true
    then some e.path else none),
   entries.filterMap (fun e =>
    if e.kind = FileKind.regular
        ∧ VIDEO_EXTENSIONS.contains (strLower (suffixOf (pathName e.path))) = true
    then some e.path else none))

/-- C9, counterexample to the claim as stated: a symlink that resolves to
a regular file with a photo extension is included by the code, while the
claim says symlinks are never included. -/
theorem claim_C9_counterexample :
    (discover_files [DirEntry.mk ["S", "x.jpg"] FileKind.symlinkToRegular]).1
      = [["S", "x.jpg"]]
    ∧ (specDiscoverClaim [DirEntry.mk ["S", "x.jpg"] FileKind.symlinkToRegular]).1
      = [] := by
  refine ⟨by decide, by decide⟩

/-- World of the C2 failing input: two regular photos, one with a
malformed `EXIF:DateTimeOriginal` (dashes instead of colons), one with a
well-formed one. -/
def worldC2 : World :=
  World.mk true true ["T"]
    [DirEntry.mk ["S", "bad.jpg"] FileKind.regular,
     DirEntry.mk ["S", "good.jpg"] FileKind.regular]
    [(["S", "bad.jpg"], "2024-03-15 10:30:00"),
     (["S", "good.jpg"], "2024:03:15 10:30:00")]
    [] [] false true []

/-- Default-flag live configuration. -/
def cfgLive : Config := Config.mk false false false false false

/-- C2, evaluation at the failing input: one photo whose timestamp string
deviates from the fixed pattern makes `extract_photo_dates` raise, so the
whole photo-resolution phase aborts with exit status 1; the deviation is
not recorded as a per-file resolution failure, and the other,
well-formed photo of the batch is not resolved or moved either.  This
contradicts the claim, which the code's own per-file try/except structure
shows to be the intent. -/
theorem claim_C2_malformed_date_phase_fatal :
    extract_photo_dates (photoInputs worldC2)
      = Except.error "Failed to extract EXIF data: Unexpected date format: 2024-03-15 10:30:00"
    ∧ (organize_media worldC2 cfgLive).exit = 1
    ∧ (organize_media worldC2 cfgLive).phaseFailed = true
    ∧ (organize_media worldC2 cfgLive).resolutionErrors = []
    ∧ (organize_media worldC2 cfgLive).moves = [] := by
  refine ⟨rfl, rfl, rfl, rfl, rfl⟩

theorem plan_total_aux (fs : FS) (root : MPath) (grp cd ow : Bool) :
    ∀ (fds : List (MPath × PyDateTime)) (acc : PlanResult),
      ((fds.foldl (planStep fs root grp cd ow) acc).moves).length
        + ((fds.foldl (planStep fs root grp cd ow) acc).duplicates).length
        + ((fds.foldl (planStep fs root grp cd ow) acc).errors).length
      = acc.moves.length + acc.duplicates.length + acc.errors.length + fds.length
  | [], acc => by simp
  | fd :: rest, acc => by
    rw [List.foldl_cons, plan_total_aux fs root grp cd ow rest]
    cases how : ow with
    | true =>
      simp [planStep]
      omega
    | false =>
      cases h : check_file_conflict fs fd.1 (calculate_target_path fd.1 fd.2 root grp) cd with
      | some m =>
        simp [planStep, h]
        omega
      | none =>
        by_cases he : fsExists fs (calculate_target_path fd.1 fd.2 root grp) = true
        · simp [planStep, h, he]
          omega
        · rw [Bool.not_eq_true] at he
          simp [planStep, h, he]
          omega

theorem extract_ok_eq :
    ∀ (l : List (MPath × Option String)) (r : List (MPath × PyDateTime)),
      extract_photo_dates l = Except.ok r →
      r = l.filterMap (fun pf =>
        (pf.2.bind (fun s => if matchesDatePattern s then pyStrptime s else none)).map
          (fun d => (pf.1, d)))
  | [], r, h => by
    simp only [extract_photo_dates] at h
    cases h
    rfl
  | (p, none) :: rest, r, h => by
    simp only [extract_photo_dates] at h
    have hrec := extract_ok_eq rest r h
    simp [List.filterMap_cons, hrec]
  | (p, some s) :: rest, r, h => by
    by_cases hm : matchesDatePattern s = true
    · cases hp : pyStrptime s with
      | some d =>
        cases he : extract_photo_dates rest with
        | ok r0 =>
          have hrec := extract_ok_eq rest r0 he
          simp only [extract_photo_dates, hm, if_true, hp, he, Except.map] at h
          cases h
          simp [List.filterMap_cons, hm, hp, hrec]
        | error e =>
          simp only [extract_photo_dates, hm, if_true, hp, he, Except.map] at h
          cases h
      | none =>
        simp only [extract_photo_dates, hm, if_true, hp] at h
        cases h
    · rw [Bool.not_eq_true] at hm
      simp [extract_photo_dates, hm] at h

theorem filterMap_pair_map_fst {α β : Type} (l : List α) (G : α → Option β) :
    ((l.filterMap (fun p => (G p).map (fun d => (p, d)))).map Prod.fst)
      = l.filter (fun p => (G p).isSome) := by
  induction l with
  | nil => rfl
  | cons a t ih =>
    cases h : G a <;> simp [List.filterMap_cons, h, ih, List.filter_cons]

theorem length_filter_add_not {α : Type} (l : List α) (q : α → Bool) :
    (l.filter q).length + (l.filter (fun a => !(q a))).length = l.length := by
  induction l with
  | nil => rfl
  | cons a t ih => cases h : q a <;> simp [List.filter_cons, h] <;> omega

theorem pathMem_iff (p : MPath) (ps : List MPath) : pathMem p ps = true ↔ p ∈ ps := by
  simp [pathMem]

theorem photo_accounting (w : World) (pd : List (MPath × PyDateTime))
    (he : extract_photo_dates (photoInputs w) = Except.ok pd) :
    pd.length + (photoErrsOf w pd).length = (discover_files w.entries).1.length := by
  have hpd2 : pd = ((discover_files w.entries).1).filterMap (fun p =>
      ((lookupStr w.metadata p).bind
        (fun s => if matchesDatePattern s then pyStrptime s else none)).map
        (fun d => (p, d))) := by
    have hpd := extract_ok_eq (photoInputs w) pd he
    rw [hpd]
    unfold photoInputs
    rw [List.filterMap_map]
    rfl
  have hkeys : pd.map Prod.fst = ((discover_files w.entries).1).filter (fun p =>
      ((lookupStr w.metadata p).bind
        (fun s => if matchesDatePattern s then pyStrptime s else none)).isSome) := by
    rw [hpd2, filterMap_pair_map_fst]
  have herr : photoErrsOf w pd
      = (((discover_files w.entries).1).filter (fun p =>
          !(((lookupStr w.metadata p).bind
            (fun s => if matchesDatePattern s then pyStrptime s else none)).isSome))).map
        (fun p => (p, "No EXIF:DateTimeOriginal found")) := by
    unfold photoErrsOf
    congr 1
    apply List.filter_congr
    intro p hp
    have hmem : pathMem p (pd.map Prod.fst)
        = ((lookupStr w.metadata p).bind
          (fun s => if matchesDatePattern s then pyStrptime s else none)).isSome := by
      rw [hkeys]
      cases hG : ((lookupStr w.metadata p).bind
          (fun s => if matchesDatePattern s then pyStrptime s else none)).isSome with
      | true =>
        exact (pathMem_iff _ _).mpr (List.mem_filter.mpr ⟨hp, hG⟩)
      | false =>
        cases hpm : pathMem p (((discover_files w.entries).1).filter (fun q =>
            ((lookupStr w.metadata q).bind
              (fun s => if matchesDatePattern s then pyStrptime s else none)).isSome)) with
        | false => rfl
        | true =>
          have hin := (pathMem_iff _ _).mp hpm
          have := (List.mem_filter.mp hin).2
          rw [hG] at this
          cases this
    rw [hmem]
  rw [herr, List.length_map]
  have hlen1 : pd.length = (((discover_files w.entries).1).filter (fun p =>
      ((lookupStr w.metadata p).bind
        (fun s => if matchesDatePattern s then pyStrptime s else none)).isSome)).length := by
    rw [← hkeys, List.length_map]
  rw [hlen1]
  exact length_filter_add_not _ _

theorem video_accounting (w : World) :
    (videoPairsOf w).length + (videoErrsOf w).length
      = (discover_files w.entries).2.length := by
  unfold videoPairsOf videoErrsOf
  rw [List.length_map]
  have h1 : (((discover_files w.entries).2).filterMap
        (fun p => (lookupDate w.videoDates p).map (fun d => (p, d)))).length
      = (((discover_files w.entries).2).filter
        (fun p => (lookupDate w.videoDates p).isSome)).length := by
    rw [← filterMap_pair_map_fst ((discover_files w.entries).2)
      (fun p => lookupDate w.videoDates p), List.length_map]
  rw [h1]
  have h2 : (fun p => (lookupDate w.videoDates p).isNone)
      = (fun p => !((lookupDate w.videoDates p).isSome)) := by
    funext p
    cases lookupDate w.videoDates p <;> rfl
  rw [h2]
  exact length_filter_add_not _ _

/-- C5. Whenever a run reaches planning (valid directories, no declined
prompt, photo extraction did not abort), every discovered file lands in
exactly one accounting category:
moves + duplicates + planning errors + resolution errors together count
the discovered photos and videos, so no file is silently dropped. -/
theorem claim_C5_accounting (w : World) (cfg : Config)
    (h1 : w.sourceIsDir = true) (h2 : w.targetIsDir = true)
    (h3 : runDeclined w cfg = false)
    (h4 : exceptIsOk (extract_photo_dates (photoInputs w)) = true) :
    (organize_media w cfg).moves.length + (organize_media w cfg).duplicates.length
      + (organize_media w cfg).planningErrors.length
      + (organize_media w cfg).resolutionErrors.length
    = (discover_files w.entries).1.length + (discover_files w.entries).2.length := by
  obtain ⟨pd, he⟩ : ∃ pd, extract_photo_dates (photoInputs w) = Except.ok pd := by
    cases hx : extract_photo_dates (photoInputs w) with
    | ok r => exact ⟨r, rfl⟩
    | error e =>
      rw [hx] at h4
      simp [exceptIsOk] at h4
  have hplan := plan_total_aux w.fs w.targetRoot cfg.group_by_extension
    cfg.check_duplicates cfg.overwrite (pd ++ videoPairsOf w) (PlanResult.mk [] [] [])
  have hphoto := photo_accounting w pd he
  have hvideo := video_accounting w
  cases hdr : cfg.dry_run with
  | true =>
    simp only [organize_media, h1, h2, h3, he, hdr, Bool.true_eq_false, if_false,
      Bool.false_eq_true, if_true, planFiles]
    simp [List.length_append] at hplan ⊢
    omega
  | false =>
    simp only [organize_media, h1, h2, h3, he, hdr, Bool.true_eq_false, if_false,
      Bool.false_eq_true, if_true, planFiles]
    simp [List.length_append] at hplan ⊢
    omega

theorem append_ne_nil_iff {α : Type} (a b : List α) :
    (a ++ b ≠ []) ↔ (a ≠ [] ∨ b ≠ []) := by
  rw [Ne, List.append_eq_nil, not_and_or]

theorem exitOf_eq_one (a b : List (MPath × String)) :
    exitOf a b = 1 ↔ (a ≠ [] ∨ b ≠ []) := by
  unfold exitOf
  by_cases h : a ++ b = []
  · rw [if_pos h]
    rw [List.append_eq_nil] at h
    simp [h.1, h.2]
  · rw [if_neg h]
    have := (append_ne_nil_iff a b).mp h
    simp [this]

theorem exitOf_zero_or_one (a b : List (MPath × String)) :
    exitOf a b = 0 ∨ exitOf a b = 1 := by
  unfold exitOf
  by_cases h : a ++ b = [] <;> simp [h]

/-- C6. The exit status is always 0 or 1, and it is 1 exactly when the
source or target is not a valid directory, or the photo-resolution phase
aborted (a malformed timestamp, itself a resolution failure), or some file
failed resolution, or some conflict was classified as a planning error,
or some move failed.  In particular a user-declined abort exits 0, and
duplicates alone leave the status 0. -/
theorem claim_C6_exit_status (w : World) (cfg : Config) :
    ((organize_media w cfg).exit = 0 ∨ (organize_media w cfg).exit = 1)
    ∧ ((organize_media w cfg).exit = 1 ↔
        (w.sourceIsDir = false ∨ w.targetIsDir = false
          ∨ (organize_media w cfg).phaseFailed = true
          ∨ (organize_media w cfg).resolutionErrors ≠ []
          ∨ (organize_media w cfg).planningErrors ≠ []
          ∨ (organize_media w cfg).moveErrors ≠ [])) := by
  cases hs : w.sourceIsDir with
  | false => simp [organize_media, hs]
  | true =>
    cases ht : w.targetIsDir with
    | false => simp [organize_media, hs, ht]
    | true =>
      cases hd : runDeclined w cfg with
      | true => simp [organize_media, hs, ht, hd]
      | false =>
        cases he : extract_photo_dates (photoInputs w) with
        | error e => simp [organize_media, hs, ht, hd, he]
        | ok pd =>
          cases hdr : cfg.dry_run with
          | true =>
            simp only [organize_media, hs, ht, hd, he, hdr, Bool.true_eq_false,
              if_false, Bool.false_eq_true, if_true]
            constructor
            · exact exitOf_zero_or_one _ _
            · rw [exitOf_eq_one]
              simp [append_ne_nil_iff, or_assoc]
              tauto
          | false =>
            simp only [organize_media, hs, ht, hd, he, hdr, Bool.true_eq_false,
              if_false, Bool.false_eq_true, if_true]
            constructor
            · exact exitOf_zero_or_one _ _
            · rw [exitOf_eq_one]
              simp [append_ne_nil_iff, or_assoc]
              tauto

/-- C7. When dry-run mode is on, execution performs no filesystem
mutation: no move is attempted and the filesystem state after the run
equals the state before it; the plan is only materialized for display. -/
theorem claim_C7_dry_run_no_mutation (w : World) (cfg : Config)
    (h : cfg.dry_run = true) :
    (organize_media w cfg).performed = []
    ∧ (organize_media w cfg).fsAfter = w.fs := by
  cases hs : w.sourceIsDir with
  | false => simp [organize_media, hs]
  | true =>
    cases ht : w.targetIsDir with
    | false => simp [organize_media, hs, ht]
    | true =>
      cases hd : runDeclined w cfg with
      | true => simp [organize_media, hs, ht, hd]
      | false =>
        cases he : extract_photo_dates (photoInputs w) with
        | error e => simp [organize_media, hs, ht, hd, he]
        | ok pd => simp [organize_media, hs, ht, hd, he, h]

/-- A small healthy world: one regular photo with a well-formed timestamp,
valid directories, no immutable flags, an empty target tree. -/
def worldOk : World :=
  World.mk true true ["T"]
    [DirEntry.mk ["S", "a.jpg"] FileKind.regular]
    [(["S", "a.jpg"], "2024:03:15 10:30:00")]
    [] [] false true []

/-- C5, witness: the accounting theorem applied to `worldOk` under the
default live configuration. -/
theorem claim_C5_witness :
    worldOk.sourceIsDir = true ∧ worldOk.targetIsDir = true
    ∧ runDeclined worldOk cfgLive = false
    ∧ exceptIsOk (extract_photo_dates (photoInputs worldOk)) = true
    ∧ ((organize_media worldOk cfgLive).moves.length
        + (organize_media worldOk cfgLive).duplicates.length
        + (organize_media worldOk cfgLive).planningErrors.length
        + (organize_media worldOk cfgLive).resolutionErrors.length
      = (discover_files worldOk.entries).1.length
        + (discover_files worldOk.entries).2.length) :=
  ⟨rfl, rfl, rfl, by decide,
    claim_C5_accounting worldOk cfgLive rfl rfl rfl (by decide)⟩

/-- Dry-run configuration used by the C7 witness. -/
def cfgDry : Config := Config.mk false true false false false

/-- C7, witness: the dry-run theorem applied to `worldOk`. -/
theorem claim_C7_witness :
    cfgDry.dry_run = true
    ∧ (organize_media worldOk cfgDry).performed = []
    ∧ (organize_media worldOk cfgDry).fsAfter = worldOk.fs :=
  ⟨rfl, (claim_C7_dry_run_no_mutation worldOk cfgDry rfl).1,
    (claim_C7_dry_run_no_mutation worldOk cfgDry rfl).2⟩
